import Mathlib

/-!
Shallow embedding of the request-authentication and permission-resolution
subsystem of the repository (authenticator layer, workspace deletion handler
and the database-to-redis change relay), together with proofs about the
claims of its specification.

Conventions used throughout:
* `Uuid` values are modelled as natural numbers.
* Timestamps (`OffsetDateTime`, unix timestamps) are modelled as integers
  (unix seconds); `OffsetDateTime::from_unix_timestamp` is modelled as total,
  since its only failure mode (years outside the representable range) is
  irrelevant to every claim.
* `BTreeMap` values are modelled as association lists with unique keys; key
  iteration order is abstracted (no claim depends on the sortedness of the
  key order, only on which keys are present).
* `BTreeSet<Uuid>` values are modelled as `Finset Nat`.
* Store I/O (database queries, redis get/set/del) is modelled by explicit
  environments and state records; I/O transport failures are not modelled
  (every modelled operation is the successful outcome of the call).
* External crates (`uuid` parsing, `argon2`, `jsonwebtoken` decoding, IP
  network containment) are modelled as oracle parameters, since their code is
  not part of this repository; the control flow around them is translated
  from the source.
-/

namespace Patr

/-- Uuids are modelled as naturals. -/
abbrev Uuid := Nat

/-- The error taxonomy of the subsystem (`ErrorType` in the source), restricted
to the variants the modelled code constructs. -/
inductive ErrorType
  | MalformedApiToken
  | MalformedAccessToken
  | AuthorizationTokenInvalid
  | DisallowedIpAddressForApiToken
  | ServerError (msg : String)
  | ResourceDoesNotExist
  | WorkspaceNotEmpty
deriving DecidableEq

/-! ### Association-list maps (model of `BTreeMap`) -/

/-- Lookup in an association list (model of `BTreeMap::get`). -/
def alookup {V : Type} : List (Uuid × V) → Uuid → Option V
  | [], _ => none
  | (k, v) :: rest, k2 => if k2 = k then some v else alookup rest k2

/-- The combined effect of `map.entry(k)` followed by an in-place mutation:
if the key is present its value `v` becomes `f (some v)`, otherwise the key is
inserted with value `f none`. -/
def aupdate {V : Type} : List (Uuid × V) → Uuid → (Option V → V) → List (Uuid × V)
  | [], k, f => [(k, f none)]
  | (k1, v) :: rest, k, f =>
    if k = k1 then (k1, f (some v)) :: rest else (k1, v) :: aupdate rest k f

/-- Deletion of a key (model of a redis `DEL` on a keyed collection). -/
def eraseKey {V : Type} : List (Uuid × V) → Uuid → List (Uuid × V)
  | [], _ => []
  | (k, v) :: rest, k2 => if k2 = k then eraseKey rest k2 else (k, v) :: eraseKey rest k2

/-! ### The RBAC grant model (`models::rbac`) -/

/-- `ResourcePermissionType`: a permission under a `Member` workspace is
classified as an include set or an exclude set of resource ids. -/
inductive ResourcePermissionType
  | Include (resources : Finset Uuid)
  | Exclude (resources : Finset Uuid)
deriving DecidableEq

/-- `WorkspacePermission`: a workspace entry in the grant set. -/
inductive WorkspacePermission
  | SuperAdmin
  | Member (permissions : List (Uuid × ResourcePermissionType))
deriving DecidableEq

/-- The resolved grant set: `BTreeMap<Uuid, WorkspacePermission>`. -/
abbrev GrantSet := List (Uuid × WorkspacePermission)

/-- The rows the three resolver queries in `get_permissions_for_login_id`
return for the given login id, after the `filter_map` that drops rows with a
NULL column: workspace ids for the super-admin pass, and
(workspace, resource, permission) triples for the exclude and include passes. -/
structure ResolverRows where
  superAdminRows : List Uuid
  excludeRows : List (Uuid × Uuid × Uuid)
  includeRows : List (Uuid × Uuid × Uuid)
deriving DecidableEq

/-- Pass 1 body: `workspace_permissions.insert(workspace_id, SuperAdmin)`. -/
def applySuperAdminRow (acc : GrantSet) (w : Uuid) : GrantSet :=
  aupdate acc w (fun _ => .SuperAdmin)

/-- The mutation the exclude pass applies to a permission entry:
an `Include` entry is left unchanged (the source only logs an error there),
an `Exclude` entry has the resource inserted. -/
def excludeEntryStep (r : Uuid) : ResourcePermissionType → ResourcePermissionType
  | .Include s => .Include s
  | .Exclude s => .Exclude (insert r s)

/-- Pass 2 body, for one `(workspace, resource, permission)` exclude row:
`entry(workspace).or_insert(Member {})`, then on a `Member` entry
`permissions.entry(permission).or_insert(Exclude ∅)` mutated by
`excludeEntryStep`; a `SuperAdmin` entry is left unchanged (error log only). -/
def applyExcludeRow (acc : GrantSet) (row : Uuid × Uuid × Uuid) : GrantSet :=
  aupdate acc row.1 (fun wp =>
    match wp.getD (.Member []) with
    | .SuperAdmin => .SuperAdmin
    | .Member perms =>
      .Member (aupdate perms row.2.2 (fun pt =>
        excludeEntryStep row.2.1 (pt.getD (.Exclude ∅)))))

/-- The mutation the include pass applies to a permission entry: an `Include`
entry has the resource inserted, an `Exclude` entry has it removed. -/
def includeEntryStep (r : Uuid) : ResourcePermissionType → ResourcePermissionType
  | .Include s => .Include (insert r s)
  | .Exclude s => .Exclude (s.erase r)

/-- Pass 3 body, for one `(workspace, resource, permission)` include row:
`entry(workspace).or_insert(Member {})`, then on a `Member` entry
`permissions.entry(permission).or_insert(Include ∅)` mutated by
`includeEntryStep`; a `SuperAdmin` entry is left unchanged (error log only). -/
def applyIncludeRow (acc : GrantSet) (row : Uuid × Uuid × Uuid) : GrantSet :=
  aupdate acc row.1 (fun wp =>
    match wp.getD (.Member []) with
    | .SuperAdmin => .SuperAdmin
    | .Member perms =>
      .Member (aupdate perms row.2.2 (fun pt =>
        includeEntryStep row.2.1 (pt.getD (.Include ∅)))))

/-- The Permission Resolver of `get_permissions_for_login_id`: the three
passes in their fixed order (super-admin, exclude, include), each a fold over
the rows its query returned. -/
def resolvePermissions (env : ResolverRows) : GrantSet :=
  let p1 := env.superAdminRows.foldl applySuperAdminRow []
  let p2 := env.excludeRows.foldl applyExcludeRow p1
  env.includeRows.foldl applyIncludeRow p2

/-- Property of a permission entry after an include row for resource `r` has
been applied to it: the entry exists, an `Include` entry contains `r`, and an
`Exclude` entry does not contain `r`. -/
def entryGood (r : Uuid) : Option ResourcePermissionType → Prop
  | some (.Include s) => r ∈ s
  | some (.Exclude s) => r ∉ s
  | none => False

/-- Invariant the include pass establishes for a processed row `(w, r, p)`:
either the workspace entry is `SuperAdmin` (the pass leaves it alone), or it
is `Member` with a good entry at permission `p`. -/
def rowApplied (g : GrantSet) (w r p : Uuid) : Prop :=
  alookup g w = some .SuperAdmin ∨
  ∃ m, alookup g w = some (.Member m) ∧ entryGood r (alookup m p)

/-! ### The revocation ledger (redis marker keys) -/

/-- The revocation-marker keys in redis that the cached branch of
`get_permissions_for_login_id` consults, as seen for one (user id, login id)
pair: the user-scope marker, the login-scope marker, one marker per workspace
id, and the global marker. Each marker value is a unix timestamp. -/
structure Ledger where
  userMarker : Option Int
  loginMarker : Option Int
  workspaceMarkers : List (Uuid × Int)
  globalMarker : Option Int
deriving DecidableEq

/-- A marker is applicable to a snapshot created at `creationTime` iff it
exists and its timestamp is strictly greater (`data.creation_time < *time`). -/
def markerApplicable (creationTime : Int) : Option Int → Bool
  | some t => decide (creationTime < t)
  | none => false

/-- The `for workspace_id in data.permission.keys()` loop: walk the snapshot's
workspace ids; on the first applicable workspace marker, delete it and stop
with `true`; otherwise `false` with the ledger unchanged. -/
def checkWorkspaceMarkers (L : Ledger) (creationTime : Int) : List Uuid → Bool × Ledger
  | [] => (false, L)
  | w :: rest =>
    if markerApplicable creationTime (alookup L.workspaceMarkers w) then
      (true, { L with workspaceMarkers := eraseKey L.workspaceMarkers w })
    else
      checkWorkspaceMarkers L creationTime rest

/-- The `'is_valid:` labelled block of `get_permissions_for_login_id`:
check the user marker, then the login marker (deleted when applicable), then
each workspace id of the snapshot (the marker deleted when applicable), then
the global marker (deleted when applicable), short-circuiting on the first
applicable marker. Returns whether an applicable marker was observed, and the
ledger after the deletions. -/
def revocationCheck (L : Ledger) (snapshotWorkspaces : List Uuid) (creationTime : Int) :
    Bool × Ledger :=
  if markerApplicable creationTime L.userMarker then
    (true, L)
  else if markerApplicable creationTime L.loginMarker then
    (true, { L with loginMarker := none })
  else
    match checkWorkspaceMarkers L creationTime snapshotWorkspaces with
    | (true, L2) => (true, L2)
    | (false, L2) =>
      if markerApplicable creationTime L2.globalMarker then
        (true, { L2 with globalMarker := none })
      else
        (false, L2)

/-! ### The permission cache (`get_permissions_for_login_id`) -/

/-- `UserPermissionCache`: the serialized snapshot stored in redis under the
permission key for a login id. -/
structure UserPermissionCache where
  permission : GrantSet
  creation_time : Int
deriving DecidableEq

/-- The redis state `get_permissions_for_login_id` sees: the raw cached value
for this login id (`none`: key absent; `some none`: key present but the value
fails to deserialize as a `UserPermissionCache`; `some (some c)`: key present
and deserializing to `c`), plus the revocation-marker keys. -/
structure PermissionCacheState where
  cachedRaw : Option (Option UserPermissionCache)
  ledger : Ledger
deriving DecidableEq

/-- Result of `get_permissions_for_login_id`: the grant set it returns and the
redis state it leaves behind. -/
structure PermissionsResult where
  grants : GrantSet
  state : PermissionCacheState
deriving DecidableEq

/-- `get_permissions_for_login_id`, translated from the source. On a cache hit
that deserializes, the source runs the revocation check inside the labelled
block `'is_valid: { ... }` — whose only lasting effect is the marker deletions
— and then unconditionally executes `return Ok(data.permission);`: the cached
snapshot is returned whether or not an applicable marker was observed, and the
cache entry is not overwritten. On a miss (key absent, or present but failing
to deserialize) it runs the three-pass resolver, stores the fresh snapshot
with the current time as creation time, and returns the fresh grants. -/
def get_permissions_for_login_id (st : PermissionCacheState) (env : ResolverRows)
    (now : Int) : PermissionsResult :=
  match st.cachedRaw with
  | some (some data) =>
    let checked := revocationCheck st.ledger (data.permission.map Prod.fst) data.creation_time
    { grants := data.permission
      state := { cachedRaw := st.cachedRaw, ledger := checked.2 } }
  | _ =>
    let fresh := resolvePermissions env
    { grants := fresh
      state := { cachedRaw := some (some ⟨fresh, now⟩), ledger := st.ledger } }

/-! ### Credential parsing (the API-token branch of `AuthenticationService::call`) -/

/-- `strip_prefix` on the underlying character list: succeeds iff the list
starts with the pattern, returning the remainder. -/
def stripPat : List Char → List Char → Option (List Char)
  | [], l => some l
  | _ :: _, [] => none
  | p :: ps, x :: xs => if x = p then stripPat ps xs else none

/-- `token.strip_prefix("patrv1.")` from the source. -/
def stripPatrV1 (s : String) : Option String :=
  (stripPat "patrv1.".data s.data).map (fun l => ⟨l⟩)

/-- `split_once` on a character list: split at the first occurrence of `c`. -/
def splitOnceChar (c : Char) : List Char → Option (List Char × List Char)
  | [] => none
  | x :: xs =>
    if x = c then some ([], xs)
    else (splitOnceChar c xs).map (fun ab => (x :: ab.1, ab.2))

/-- `rest.split_once('.')` from the source. -/
def splitOnceDot (s : String) : Option (String × String) :=
  (splitOnceChar '.' s.data).map (fun ab => (⟨ab.1⟩, ⟨ab.2⟩))

/-- The structural parse of an API token string, translated from the source:
strip the fixed `patrv1.` marker, split the remainder at the first `.` into
`(refresh_token, login_id)` — the FIRST segment is the secret (refresh token)
and the SECOND is the login id — and parse both segments as Uuids with the
external `uuid` crate parser `parseUuid` (passed as an oracle). Every failure
is `MalformedApiToken`. -/
def parseApiTokenStr (parseUuid : String → Option Uuid) (token : String) :
    Except ErrorType (Uuid × Uuid) :=
  match stripPatrV1 token with
  | none => .error .MalformedApiToken
  | some rest =>
    match splitOnceDot rest with
    | none => .error .MalformedApiToken
    | some (refreshTokenStr, loginIdStr) =>
      match parseUuid refreshTokenStr with
      | none => .error .MalformedApiToken
      | some refreshToken =>
        match parseUuid loginIdStr with
        | none => .error .MalformedApiToken
        | some loginId => .ok (refreshToken, loginId)

/-- Modelled from the spec: the spec's own reading of the API token format,
`<fixed-prefix>.<login-id-as-id>.<secret-as-id>` — the FIRST segment is the
login id and the SECOND is the secret. Returns the same
`(refresh_token/secret, login_id)` tuple shape as `parseApiTokenStr` so the
two readings can be compared. Used only to refute the claim's segment order
against the source. -/
def parseApiTokenSpecOrder (parseUuid : String → Option Uuid) (token : String) :
    Except ErrorType (Uuid × Uuid) :=
  match stripPatrV1 token with
  | none => .error .MalformedApiToken
  | some rest =>
    match splitOnceDot rest with
    | none => .error .MalformedApiToken
    | some (loginIdStr, secretStr) =>
      match parseUuid loginIdStr with
      | none => .error .MalformedApiToken
      | some loginId =>
        match parseUuid secretStr with
        | none => .error .MalformedApiToken
        | some secret => .ok (secret, loginId)

/-! ### The API-token row checks -/

/-- The row the API-token query returns (`user_api_token` joined with
`user_login` and `"user"`). IP networks are modelled as membership oracles
over modelled IP addresses (`ip_network.contains`). -/
structure ApiTokenRow where
  token_id : Uuid
  user_id : Uuid
  token_hash : String
  token_nbf : Option Int
  token_exp : Option Int
  revoked : Option Int
  allowed_ips : Option (List (Nat → Bool))
  username : String
  first_name : String
  last_name : String
  created : Int

/-- Outcomes of the external crypto crates around secret verification:
`PasswordHash::new` on the stored hash, `Argon2::new_with_secret` with the
configured pepper, and `verify_password(refresh_token.as_bytes(), hash)`. -/
structure CryptoOracle where
  passwordHashParses : String → Bool
  argonInitOk : Bool
  verifyPassword : Uuid → String → Bool

/-- The not-before check fails: `token_nbf` present and `now < nbf`. -/
def nbfFails (now : Int) (t : ApiTokenRow) : Bool :=
  match t.token_nbf with
  | some nbf => decide (now < nbf)
  | none => false

/-- The expiry check fails: `token_exp` present and `now > exp`. -/
def expFails (now : Int) (t : ApiTokenRow) : Bool :=
  match t.token_exp with
  | some exp => decide (exp < now)
  | none => false

/-- The revoked check fails: `revoked` present and `now > revoked`. -/
def revokedFails (now : Int) (t : ApiTokenRow) : Bool :=
  match t.revoked with
  | some rv => decide (rv < now)
  | none => false

/-- The IP allow-list check fails: `allowed_ips` present and no entry contains
the requesting client IP. -/
def ipFails (clientIp : Nat) (t : ApiTokenRow) : Bool :=
  match t.allowed_ips with
  | some ips => !(ips.any (fun net => net clientIp))
  | none => false

/-- The semantic checks the API-token branch runs on the fetched row,
translated from the source in their order: absent row, not-before, expiry,
revoked-at, IP allow-list, stored-hash parse, argon2 initialization, secret
verification. -/
def checkApiTokenRow (crypto : CryptoOracle) (now : Int) (clientIp : Nat)
    (refreshToken : Uuid) (row : Option ApiTokenRow) : Except ErrorType ApiTokenRow :=
  match row with
  | none => .error .AuthorizationTokenInvalid
  | some t =>
    if nbfFails now t then .error .AuthorizationTokenInvalid
    else if expFails now t then .error .AuthorizationTokenInvalid
    else if revokedFails now t then .error .AuthorizationTokenInvalid
    else if ipFails clientIp t then .error .DisallowedIpAddressForApiToken
    else if !(crypto.passwordHashParses t.token_hash) then
      .error (.ServerError "password hash parsing failed")
    else if !crypto.argonInitOk then .error (.ServerError "argon2 initialization failed")
    else if !(crypto.verifyPassword refreshToken t.token_hash) then
      .error .AuthorizationTokenInvalid
    else .ok t

/-- The authenticated identity handed downstream (`RequestUserData`). -/
structure RequestUserData where
  id : Uuid
  username : String
  first_name : String
  last_name : String
  created : Int
  login_id : Uuid
  permissions : GrantSet
deriving DecidableEq

/-- The store state the API-token branch can reach: the api-token row fetch by
login id, the resolver rows for the login, and the redis permission cache. -/
structure ApiAuthEnv where
  fetchToken : Uuid → Option ApiTokenRow
  resolver : ResolverRows
  cache : PermissionCacheState

/-- The full `ClientType::ApiToken` branch of `AuthenticationService::call`:
parse the bearer string, fetch and check the token row, then resolve the
permissions through the cache; on success it builds the `RequestUserData`. -/
def authApiToken (parseUuid : String → Option Uuid) (crypto : CryptoOracle)
    (now : Int) (clientIp : Nat) (token : String) (env : ApiAuthEnv) :
    Except ErrorType (RequestUserData × PermissionCacheState) :=
  match parseApiTokenStr parseUuid token with
  | .error e => .error e
  | .ok (refreshToken, loginId) =>
    match checkApiTokenRow crypto now clientIp refreshToken (env.fetchToken loginId) with
    | .error e => .error e
    | .ok t =>
      let pr := get_permissions_for_login_id env.cache env.resolver now
      .ok (⟨t.user_id, t.username, t.first_name, t.last_name, t.created, t.token_id,
            pr.grants⟩, pr.state)

/-! ### The session-token branch of `AuthenticationService::call` -/

/-- `OneOrMore`, the shape of the `aud` claim. -/
inductive OneOrMore (α : Type)
  | One (a : α)
  | Multiple (l : List α)
deriving DecidableEq

/-- The decoded JWT claims (`AccessTokenData`). `jti_timestamp` is
`jti.get_timestamp()`, the creation time embedded in the time-ordered jti. -/
structure AccessTokenData where
  iss : String
  sub : Uuid
  aud : OneOrMore String
  exp : Int
  nbf : Int
  jti_timestamp : Option Int
deriving DecidableEq

/-- The row the web-login query returns (`"user"` joined with `web_login`). -/
structure WebLoginRow where
  id : Uuid
  username : String
  first_name : String
  last_name : String
  created : Int
  token_expiry : Int
deriving DecidableEq

/-- The store state the session branch can reach. -/
structure SessionAuthEnv where
  fetchWebLogin : Uuid → Option WebLoginRow
  resolver : ResolverRows
  cache : PermissionCacheState

/-- The configuration constants the session branch compares against
(`constants::JWT_ISSUER`, `constants::PATR_JWT_AUDIENCE`,
`AccessTokenData::REFRESH_TOKEN_VALIDITY` in seconds); their values are
defined outside the provided sources, so they are parameters here. -/
structure SessionConfig where
  jwtIssuer : String
  patrJwtAudience : String
  refreshTokenValidity : Int
deriving DecidableEq

/-- `aud.clone().into_iter().any(|item| item == expected)`. -/
def audContains (aud : OneOrMore String) (x : String) : Bool :=
  match aud with
  | .One a => a = x
  | .Multiple l => l.any (fun a => a = x)

/-- The full `ClientType::WebDashboard` branch of `AuthenticationService::call`,
translated from the source. `decoded` is the outcome of the external
`jsonwebtoken::decode` with signature verification only (`none` on signature
or structural failure). The checks run in the source's order: decode, issuer,
jti age, not-before, expiry, the web-login row fetch, the store's own expiry
for the login, audience; then permission resolution through the cache. -/
def authSession (cfg : SessionConfig) (decoded : Option AccessTokenData) (now : Int)
    (env : SessionAuthEnv) : Except ErrorType (RequestUserData × PermissionCacheState) :=
  match decoded with
  | none => .error .MalformedAccessToken
  | some c =>
    if c.iss ≠ cfg.jwtIssuer then .error .MalformedAccessToken
    else
      match c.jti_timestamp with
      | none => .error .MalformedAccessToken
      | some jts =>
        if cfg.refreshTokenValidity < now - jts then .error .AuthorizationTokenInvalid
        else if now < c.nbf then .error .AuthorizationTokenInvalid
        else if c.exp < now then .error .AuthorizationTokenInvalid
        else
          match env.fetchWebLogin c.sub with
          | none => .error .AuthorizationTokenInvalid
          | some user =>
            if user.token_expiry < now then .error .AuthorizationTokenInvalid
            else if !(audContains c.aud cfg.patrJwtAudience) then
              .error .MalformedAccessToken
            else
              let pr := get_permissions_for_login_id env.cache env.resolver now
              .ok (⟨user.id, user.username, user.first_name, user.last_name,
                    user.created, c.sub, pr.grants⟩, pr.state)

/-! ### The workspace deletion handler (`delete_workspace`) -/

/-- The workspace row (`SELECT * FROM workspace WHERE id = $1 AND deleted IS
NULL`); `none` when the row is absent or already deleted. -/
structure WorkspaceRow where
  id : Uuid
  super_admin_id : Uuid
deriving DecidableEq

/-- The store state `delete_workspace` reads: the workspace row for the path's
workspace id, and the count of non-deleted resources owned by the workspace
(the `COALESCE(COUNT(*), 0)` value, with the row/`count` options already
defaulted to `0` as `.and_then(|row| row.count).unwrap_or(0)` does). -/
structure DeleteWorkspaceEnv where
  workspaceRow : Option WorkspaceRow
  resourceCount : Nat
deriving DecidableEq

/-- The mutations `delete_workspace` performs: whether the `UPDATE resource
SET deleted = NOW()` ran, and the workspace-scope revocation marker written
(`(unix timestamp value, TTL in seconds)`), if any. -/
structure DeleteWorkspaceEffects where
  resourceMarkedDeleted : Bool
  markerWritten : Option (Int × Nat)
deriving DecidableEq

/-- The TTL (seconds) the authenticator uses when writing a permission
snapshot: `CACHED_PERMISSIONS_VALIDITY.whole_seconds().unsigned_abs()`. The
constant's value lives outside the provided sources, so it is a parameter. -/
def snapshotTtlSeconds (cachedPermissionsValiditySecs : Nat) : Nat :=
  cachedPermissionsValiditySecs

/-- The TTL (seconds) `delete_workspace` gives the workspace revocation
marker: `CACHED_PERMISSIONS_VALIDITY.whole_seconds().unsigned_abs().add(300)`. -/
def deletionMarkerTtlSeconds (cachedPermissionsValiditySecs : Nat) : Nat :=
  cachedPermissionsValiditySecs + 300

/-- `delete_workspace`, translated from the source: fetch the non-deleted
workspace row (`ResourceDoesNotExist` if absent), require the requester to be
its super admin (`ResourceDoesNotExist` otherwise), require zero non-deleted
resources (`WorkspaceNotEmpty` otherwise), then mark the workspace's resource
row deleted and write the workspace-scope revocation marker with the current
time as value. Errors occur before either mutation. -/
def delete_workspace (userId : Uuid) (env : DeleteWorkspaceEnv) (now : Int)
    (validitySecs : Nat) : Except ErrorType Unit × DeleteWorkspaceEffects :=
  match env.workspaceRow with
  | none => (.error .ResourceDoesNotExist, ⟨false, none⟩)
  | some w =>
    if w.super_admin_id ≠ userId then (.error .ResourceDoesNotExist, ⟨false, none⟩)
    else if 0 < env.resourceCount then (.error .WorkspaceNotEmpty, ⟨false, none⟩)
    else (.ok (), ⟨true, some (now, deletionMarkerTtlSeconds validitySecs)⟩)

/-! ### The change relay (`redis_publisher::run`) -/

/-- One iteration's outcome of `futures::future::select(exit_signal,
listener.recv())`: either the exit signal won, or a notification arrived —
`recvOk` is whether `recv` returned `Ok`, and `publishFails` whether the
subsequent redis `publish` would fail (its result is discarded by the source). -/
inductive RelayEvent
  | shutdown
  | notification (recvOk : Bool) (channel payload : String) (publishFails : Bool)
deriving DecidableEq

/-- The relay's two states. -/
inductive RelayState
  | Listening
  | Stopped
deriving DecidableEq

/-- Whether an event is the exit signal winning the race. -/
def isShutdown : RelayEvent → Bool
  | .shutdown => true
  | _ => false

/-- The verbatim `(channel, payload)` of a successfully received
notification; `none` for a failed `recv` or the shutdown event. -/
def notifPayload : RelayEvent → Option (String × String)
  | .notification true ch pl _ => some (ch, pl)
  | _ => none

/-- The relay loop of `redis_publisher::run` over a finite prefix of race
outcomes: on shutdown, stop; on an `Ok` notification, publish its channel and
payload verbatim (the publish result is discarded) and continue; on a failed
`recv`, continue. Returns the list of publish attempts in order and the final
state (`Listening` when the modelled prefix ends without a shutdown). -/
def relayRun : List RelayEvent → List (String × String) × RelayState
  | [] => ([], .Listening)
  | .shutdown :: _ => ([], .Stopped)
  | .notification recvOk ch pl _ :: rest =>
    let tail := relayRun rest
    ((if recvOk then [(ch, pl)] else []) ++ tail.1, tail.2)

/-! ## Helper lemmas -/

theorem alookup_aupdate_self {V : Type} (l : List (Uuid × V)) (k : Uuid) (f : Option V → V) :
    alookup (aupdate l k f) k = some (f (alookup l k)) := by
  induction l with
  | nil => simp [aupdate, alookup]
  | cons hd t ih =>
    obtain ⟨k1, v⟩ := hd
    by_cases hk : k = k1
    · subst hk
      simp [aupdate, alookup]
    · simp [aupdate, alookup, hk, ih]

theorem alookup_aupdate_ne {V : Type} (l : List (Uuid × V)) (k k2 : Uuid) (f : Option V → V)
    (h : k2 ≠ k) : alookup (aupdate l k f) k2 = alookup l k2 := by
  induction l with
  | nil => simp [aupdate, alookup, h]
  | cons hd t ih =>
    obtain ⟨k1, v⟩ := hd
    by_cases hk : k = k1
    · subst hk
      simp [aupdate, alookup, h]
    · simp [aupdate, alookup, hk, ih]

theorem rowApplied_applyIncludeRow_self (acc : GrantSet) (w r p : Uuid) :
    rowApplied (applyIncludeRow acc (w, r, p)) w r p := by
  unfold rowApplied applyIncludeRow
  rw [alookup_aupdate_self]
  cases hw : alookup acc w with
  | none =>
    right
    refine ⟨_, rfl, ?_⟩
    rw [alookup_aupdate_self]
    simp [entryGood, includeEntryStep, alookup]
  | some wp =>
    cases wp with
    | SuperAdmin => left; rfl
    | Member perms =>
      right
      refine ⟨_, rfl, ?_⟩
      rw [alookup_aupdate_self]
      cases hp : alookup perms p with
      | none => simp [entryGood, includeEntryStep]
      | some pt =>
        cases pt with
        | Include s => simp [entryGood, includeEntryStep]
        | Exclude s => simp [entryGood, includeEntryStep]

theorem rowApplied_applyIncludeRow (acc : GrantSet) (row : Uuid × Uuid × Uuid)
    (w r p : Uuid) (h : rowApplied acc w r p) :
    rowApplied (applyIncludeRow acc row) w r p := by
  obtain ⟨w2, r2, p2⟩ := row
  by_cases hw : w2 = w
  · subst hw
    unfold rowApplied at h ⊢
    unfold applyIncludeRow
    rw [alookup_aupdate_self]
    rcases h with hsa | ⟨m, hm, hg⟩
    · left
      rw [hsa]
      rfl
    · right
      rw [hm]
      refine ⟨_, rfl, ?_⟩
      show entryGood r (alookup (aupdate m p2 _) p)
      by_cases hp : p2 = p
      · subst hp
        rw [alookup_aupdate_self]
        cases hmp : alookup m p2 with
        | none => rw [hmp] at hg; exact absurd hg (by simp [entryGood])
        | some pt =>
          rw [hmp] at hg
          cases pt with
          | Include s =>
            simp only [entryGood] at hg ⊢
            simp [includeEntryStep, Finset.mem_insert_of_mem hg]
          | Exclude s =>
            simp only [entryGood] at hg ⊢
            simp only [Option.getD_some, includeEntryStep]
            intro hmem
            exact hg (Finset.mem_of_mem_erase hmem)
      · rw [alookup_aupdate_ne _ _ _ _ (fun hc => hp hc.symm)]
        exact hg
  · unfold rowApplied at h ⊢
    unfold applyIncludeRow
    rw [alookup_aupdate_ne _ _ _ _ (fun hc => hw hc.symm)]
    exact h

theorem rowApplied_foldl (rows : List (Uuid × Uuid × Uuid)) (acc : GrantSet)
    (w r p : Uuid) (h : rowApplied acc w r p) :
    rowApplied (rows.foldl applyIncludeRow acc) w r p := by
  induction rows generalizing acc with
  | nil => exact h
  | cons x xs ih => exact ih _ (rowApplied_applyIncludeRow _ _ _ _ _ h)

theorem rowApplied_of_mem (w r p : Uuid) :
    ∀ (rows : List (Uuid × Uuid × Uuid)) (acc : GrantSet), (w, r, p) ∈ rows →
      rowApplied (rows.foldl applyIncludeRow acc) w r p
  | x :: xs, acc, h => by
    rcases List.mem_cons.mp h with hx | hxs
    · rw [List.foldl_cons, ← hx]
      exact rowApplied_foldl xs _ w r p (rowApplied_applyIncludeRow_self acc w r p)
    · rw [List.foldl_cons]
      exact rowApplied_of_mem w r p xs _ hxs

theorem checkWorkspaceMarkers_eq (L : Ledger) (T : Int) (ws : List Uuid) :
    checkWorkspaceMarkers L T ws =
      match ws.find? (fun w => markerApplicable T (alookup L.workspaceMarkers w)) with
      | some w => (true, { L with workspaceMarkers := eraseKey L.workspaceMarkers w })
      | none => (false, L) := by
  induction ws with
  | nil => rfl
  | cons w rest ih =>
    by_cases hw : markerApplicable T (alookup L.workspaceMarkers w) = true
    · rw [checkWorkspaceMarkers, if_pos hw,
        @List.find?_cons_of_pos _ (fun x => markerApplicable T (alookup L.workspaceMarkers x))
          w rest hw]
    · rw [checkWorkspaceMarkers, if_neg hw, ih,
        @List.find?_cons_of_neg _ (fun x => markerApplicable T (alookup L.workspaceMarkers x))
          w rest hw]

theorem stripPat_eq : ∀ (ps l r : List Char), stripPat ps l = some r → l = ps ++ r
  | [], l, r, h => by
    simp only [stripPat, Option.some.injEq] at h
    simp [h]
  | p :: ps, [], r, h => by simp [stripPat] at h
  | p :: ps, x :: xs, r, h => by
    by_cases hx : x = p
    · subst hx
      simp only [stripPat, if_pos rfl] at h
      simp [stripPat_eq ps xs r h]
    · simp [stripPat, hx] at h

theorem splitOnceChar_eq : ∀ (c : Char) (l a b : List Char),
    splitOnceChar c l = some (a, b) → l = a ++ c :: b ∧ c ∉ a
  | c, [], a, b, h => by simp [splitOnceChar] at h
  | c, x :: xs, a, b, h => by
    by_cases hx : x = c
    · subst hx
      simp only [splitOnceChar, if_true, eq_self_iff_true, Option.some.injEq,
        Prod.mk.injEq] at h
      obtain ⟨ha, hb⟩ := h
      subst ha
      subst hb
      simp
    · simp only [splitOnceChar, if_neg hx] at h
      cases hsx : splitOnceChar c xs with
      | none => rw [hsx] at h; cases h
      | some ab =>
        obtain ⟨a2, b2⟩ := ab
        rw [hsx] at h
        simp only [Option.map_some', Option.some.injEq, Prod.mk.injEq] at h
        obtain ⟨ha, hb⟩ := h
        subst ha
        subst hb
        obtain ⟨hl, hc⟩ := splitOnceChar_eq c xs a2 b2 hsx
        subst hl
        refine ⟨rfl, ?_⟩
        intro hmem
        rcases List.mem_cons.mp hmem with h1 | h2
        · exact hx h1.symm
        · exact hc h2

/-! ## Claim theorems -/

/-- Claim C1 (code bug demonstration). The claim says a cache hit whose
snapshot is postdated by an applicable revocation marker must be treated as a
miss: the resolver must run, its fresh result must overwrite the cache entry
and be returned. The source instead runs the revocation check inside the
labelled block `'is_valid: { ... }` and then unconditionally executes
`return Ok(data.permission)`, so the stale snapshot is returned and the cache
entry is left in place. Concretely: a snapshot with empty grants created at
time 5, a user-scope marker with timestamp 6 (observed as applicable by the
check, first conjunct), and a database state whose fresh resolution grants
super-admin on workspace 7 (third conjunct) — yet the call returns the stale
empty grant set and leaves the cache entry unchanged (second conjunct). -/
theorem stale_snapshot_returned_after_applicable_marker :
    (revocationCheck ⟨some 6, none, [], none⟩ [] 5).1 = true ∧
    get_permissions_for_login_id ⟨some (some ⟨[], 5⟩), ⟨some 6, none, [], none⟩⟩
        ⟨[7], [], []⟩ 100 =
      ⟨[], ⟨some (some ⟨[], 5⟩), ⟨some 6, none, [], none⟩⟩⟩ ∧
    resolvePermissions ⟨[7], [], []⟩ = [(7, .SuperAdmin)] := by
  decide

/-- Claim C2: in the include pass, every `(workspace, resource, permission)`
include row whose workspace entry ends up `Member` leaves the resource in the
permission's `Include` set if the entry is include-classified, out of the
permission's `Exclude` set if the entry is exclude-classified (so an include
row always cancels a prior exclude of the same resource for the same
permission), and the permission entry always exists. The row lists are
universally quantified, so the property holds for every order in which the
database returns the rows of each pass, with the pass order fixed by
`resolvePermissions`. -/
theorem include_overrides_exclude (env : ResolverRows) (w r p : Uuid)
    (hrow : (w, r, p) ∈ env.includeRows)
    (m : List (Uuid × ResourcePermissionType))
    (hmem : alookup (resolvePermissions env) w = some (.Member m)) :
    (∀ s, alookup m p = some (.Include s) → r ∈ s) ∧
    (∀ s, alookup m p = some (.Exclude s) → r ∉ s) ∧
    alookup m p ≠ none := by
  have h := rowApplied_of_mem w r p env.includeRows
    (env.excludeRows.foldl applyExcludeRow (env.superAdminRows.foldl applySuperAdminRow []))
    hrow
  rw [show resolvePermissions env = env.includeRows.foldl applyIncludeRow
      (env.excludeRows.foldl applyExcludeRow
        (env.superAdminRows.foldl applySuperAdminRow [])) from rfl] at hmem
  rcases h with hsa | ⟨m2, hm2, hg⟩
  · rw [hsa] at hmem
    cases hmem
  · rw [hm2] at hmem
    have hmm : WorkspacePermission.Member m2 = .Member m := Option.some.inj hmem
    have : m2 = m := by cases hmm; rfl
    subst this
    refine ⟨?_, ?_, ?_⟩
    · intro s hs
      rw [hs] at hg
      simpa [entryGood] using hg
    · intro s hs
      rw [hs] at hg
      simpa [entryGood] using hg
    · intro hn
      rw [hn] at hg
      simp [entryGood] at hg

/-- Witness for C2 at a concrete input: exclude row then include row for the
same (workspace 1, resource 10, permission 5) triple; the final entry for
permission 5 is exclude-classified with an empty set, and the theorem yields
that resource 10 is not excluded. -/
theorem include_overrides_exclude_witness :
    alookup (resolvePermissions ⟨[], [(1, 10, 5)], [(1, 10, 5)]⟩) 1 =
      some (.Member [(5, .Exclude ∅)]) ∧
    (10 : Uuid) ∉ (∅ : Finset Uuid) := by
  constructor
  · decide
  · exact (include_overrides_exclude ⟨[], [(1, 10, 5)], [(1, 10, 5)]⟩ 1 10 5 (by decide)
      [(5, .Exclude ∅)] (by decide)).2.1 ∅ (by decide)

/-- Claim C4 (counterexample). The claim says user-scope and global-scope
markers are left intact by the revocation check. On a ledger holding only a
global marker with timestamp 6 and a snapshot created at time 5, the check
observes the global marker as applicable (first conjunct) and deletes it
(second conjunct), contradicting the claim. -/
theorem global_marker_deleted_when_applicable :
    (revocationCheck ⟨none, none, [], some 6⟩ [] 5).1 = true ∧
    (revocationCheck ⟨none, none, [], some 6⟩ [] 5).2.globalMarker = none := by
  decide

/-- Claim C4 (amended): the revocation check deletes a login-scope,
workspace-scope, or global-scope marker exactly when it observes it as
applicable (for workspace scope: the first applicable marker in the
snapshot's key order), leaves user-scope markers intact in every case, and
touches no other ledger key: the four equations fully determine the ledger
after the check from the ledger before it. -/
theorem revocation_check_marker_frame (L : Ledger) (ws : List Uuid) (T : Int) :
    ((revocationCheck L ws T).2.userMarker = L.userMarker) ∧
    ((revocationCheck L ws T).2.loginMarker =
      if markerApplicable T L.userMarker then L.loginMarker
      else if markerApplicable T L.loginMarker then none
      else L.loginMarker) ∧
    ((revocationCheck L ws T).2.workspaceMarkers =
      if markerApplicable T L.userMarker || markerApplicable T L.loginMarker then
        L.workspaceMarkers
      else
        match ws.find? (fun w => markerApplicable T (alookup L.workspaceMarkers w)) with
        | some w => eraseKey L.workspaceMarkers w
        | none => L.workspaceMarkers) ∧
    ((revocationCheck L ws T).2.globalMarker =
      if markerApplicable T L.userMarker || markerApplicable T L.loginMarker ||
          (ws.find? (fun w => markerApplicable T (alookup L.workspaceMarkers w))).isSome then
        L.globalMarker
      else if markerApplicable T L.globalMarker then none
      else L.globalMarker) := by
  unfold revocationCheck
  rw [checkWorkspaceMarkers_eq]
  by_cases hu : markerApplicable T L.userMarker = true
  · simp [hu]
  · by_cases hl : markerApplicable T L.loginMarker = true
    · simp [hu, hl]
    · cases hf : ws.find? (fun w => markerApplicable T (alookup L.workspaceMarkers w)) with
      | some w => simp [hu, hl, hf]
      | none =>
        by_cases hg : markerApplicable T L.globalMarker = true
        · simp [hu, hl, hf, hg]
        · simp [hu, hl, hf, hg]

/-- Claim C10: a cached value that exists but fails to deserialize is treated
exactly as a miss — the three-pass resolver runs, the cache entry is
overwritten with the fresh snapshot carrying the new creation time, the fresh
grants are returned, and no error surfaces (the function's result type has no
error outcome on this path). -/
theorem deserialization_failure_treated_as_miss (L : Ledger) (env : ResolverRows)
    (now : Int) :
    get_permissions_for_login_id ⟨some none, L⟩ env now =
      ⟨resolvePermissions env, ⟨some (some ⟨resolvePermissions env, now⟩), L⟩⟩ ∧
    get_permissions_for_login_id ⟨some none, L⟩ env now =
      get_permissions_for_login_id ⟨none, L⟩ env now :=
  ⟨rfl, rfl⟩

/-- Claim C3: the API-token semantic checks run in the fixed order not-before,
expiry, revoked-at, IP allow-list, secret verification. An absent row yields
`AuthorizationTokenInvalid` (first conjunct); the result is
`DisallowedIpAddressForApiToken` exactly when the three time checks pass and
the IP check fails, so only the IP check produces that error (second
conjunct); any failing time check yields `AuthorizationTokenInvalid` (third
conjunct); a failing secret verification, reached after all earlier checks
pass, also yields `AuthorizationTokenInvalid` (fourth conjunct) — making a
missing login id and a wrong secret indistinguishable to the caller. -/
theorem api_token_check_errors (crypto : CryptoOracle) (now : Int) (ip : Nat) (rt : Uuid) :
    (checkApiTokenRow crypto now ip rt none = .error .AuthorizationTokenInvalid) ∧
    (∀ t : ApiTokenRow,
      (checkApiTokenRow crypto now ip rt (some t) = .error .DisallowedIpAddressForApiToken ↔
        nbfFails now t = false ∧ expFails now t = false ∧ revokedFails now t = false ∧
          ipFails ip t = true)) ∧
    (∀ t : ApiTokenRow,
      (nbfFails now t = true ∨ expFails now t = true ∨ revokedFails now t = true) →
        checkApiTokenRow crypto now ip rt (some t) = .error .AuthorizationTokenInvalid) ∧
    (∀ t : ApiTokenRow, nbfFails now t = false → expFails now t = false →
      revokedFails now t = false → ipFails ip t = false →
      crypto.passwordHashParses t.token_hash = true → crypto.argonInitOk = true →
      crypto.verifyPassword rt t.token_hash = false →
      checkApiTokenRow crypto now ip rt (some t) = .error .AuthorizationTokenInvalid) := by
  refine ⟨rfl, ?_, ?_, ?_⟩
  · intro t
    by_cases h1 : nbfFails now t = true
    · simp [checkApiTokenRow, h1]
    · by_cases h2 : expFails now t = true
      · simp [checkApiTokenRow, h1, h2]
      · by_cases h3 : revokedFails now t = true
        · simp [checkApiTokenRow, h1, h2, h3]
        · by_cases h4 : ipFails ip t = true
          · simp [checkApiTokenRow, h1, h2, h3, h4]
          · by_cases h5 : crypto.passwordHashParses t.token_hash = true
            · by_cases h6 : crypto.argonInitOk = true
              · by_cases h7 : crypto.verifyPassword rt t.token_hash = true
                · simp [checkApiTokenRow, h1, h2, h3, h4, h5, h6, h7]
                · simp [checkApiTokenRow, h1, h2, h3, h4, h5, h6, h7]
              · simp [checkApiTokenRow, h1, h2, h3, h4, h5, h6]
            · simp [checkApiTokenRow, h1, h2, h3, h4, h5]
  · intro t h
    rcases h with h1 | h2 | h3
    · simp [checkApiTokenRow, h1]
    · by_cases h1 : nbfFails now t = true
      · simp [checkApiTokenRow, h1]
      · simp [checkApiTokenRow, h1, h2]
    · by_cases h1 : nbfFails now t = true
      · simp [checkApiTokenRow, h1]
      · by_cases h2 : expFails now t = true
        · simp [checkApiTokenRow, h1, h2]
        · simp [checkApiTokenRow, h1, h2, h3]
  · intro t h1 h2 h3 h4 h5 h6 h7
    simp [checkApiTokenRow, h1, h2, h3, h4, h5, h6, h7]

/-- Witness for C3: a token row whose IP allow-list is present and empty is
rejected with `DisallowedIpAddressForApiToken`, and an absent row with
`AuthorizationTokenInvalid`, at concrete inputs. -/
theorem api_token_check_errors_witness :
    checkApiTokenRow ⟨fun _ => true, true, fun _ _ => false⟩ 100 5 1
        (some ⟨0, 0, "h", none, none, none, some [], "u", "f", "l", 0⟩) =
      .error .DisallowedIpAddressForApiToken ∧
    checkApiTokenRow ⟨fun _ => true, true, fun _ _ => false⟩ 100 5 1 none =
      .error .AuthorizationTokenInvalid := by
  constructor
  · exact ((api_token_check_errors ⟨fun _ => true, true, fun _ _ => false⟩ 100 5 1).2.1
      ⟨0, 0, "h", none, none, none, some [], "u", "f", "l", 0⟩).mpr ⟨rfl, rfl, rfl, rfl⟩
  · exact (api_token_check_errors ⟨fun _ => true, true, fun _ _ => false⟩ 100 5 1).1

/-- Claim C7: once the time and IP checks pass, a stored token hash that fails
to parse as a password hash yields the server-side `ServerError` (never an
authentication error), while a presented secret failing verification against
a parsable stored hash yields `AuthorizationTokenInvalid`. -/
theorem secret_verifier_error_classes (crypto : CryptoOracle) (now : Int) (ip : Nat)
    (rt : Uuid) (t : ApiTokenRow) (h1 : nbfFails now t = false)
    (h2 : expFails now t = false) (h3 : revokedFails now t = false)
    (h4 : ipFails ip t = false) :
    (crypto.passwordHashParses t.token_hash = false →
      checkApiTokenRow crypto now ip rt (some t) =
        .error (.ServerError "password hash parsing failed")) ∧
    (crypto.passwordHashParses t.token_hash = true → crypto.argonInitOk = true →
      crypto.verifyPassword rt t.token_hash = false →
      checkApiTokenRow crypto now ip rt (some t) = .error .AuthorizationTokenInvalid) := by
  constructor
  · intro h5
    simp [checkApiTokenRow, h1, h2, h3, h4, h5]
  · intro h5 h6 h7
    simp [checkApiTokenRow, h1, h2, h3, h4, h5, h6, h7]

/-- Witness for C7 at concrete inputs: an unparsable stored hash gives the
`ServerError`, a parsable one with a failing secret gives
`AuthorizationTokenInvalid`. -/
theorem secret_verifier_error_classes_witness :
    checkApiTokenRow ⟨fun _ => false, true, fun _ _ => true⟩ 100 5 1
        (some ⟨0, 0, "h", none, none, none, none, "u", "f", "l", 0⟩) =
      .error (.ServerError "password hash parsing failed") ∧
    checkApiTokenRow ⟨fun _ => true, true, fun _ _ => false⟩ 100 5 1
        (some ⟨0, 0, "h", none, none, none, none, "u", "f", "l", 0⟩) =
      .error .AuthorizationTokenInvalid := by
  constructor
  · exact (secret_verifier_error_classes ⟨fun _ => false, true, fun _ _ => true⟩ 100 5 1
      ⟨0, 0, "h", none, none, none, none, "u", "f", "l", 0⟩ rfl rfl rfl rfl).1 rfl
  · exact (secret_verifier_error_classes ⟨fun _ => true, true, fun _ _ => false⟩ 100 5 1
      ⟨0, 0, "h", none, none, none, none, "u", "f", "l", 0⟩ rfl rfl rfl rfl).2 rfl rfl rfl

/-- Claim C5 (counterexample). The claim says the token form is
`<fixed-prefix>.<login-id-as-id>.<secret-as-id>`, the login id being the
first segment after the fixed part. The source destructures
`split_once('.')` as `(refresh_token, login_id)`: the FIRST segment is the
secret and the SECOND is the login id. With a parser mapping segment "a" to 1
and "b" to 2, the source parse of "patrv1.a.b" yields
`(secret, login) = (1, 2)` while the spec's segment order yields `(2, 1)`. -/
theorem api_token_segment_order_counterexample :
    parseApiTokenStr (fun s => if s = "a" then some 1 else if s = "b" then some 2 else none)
        "patrv1.a.b" = .ok (1, 2) ∧
    parseApiTokenSpecOrder
        (fun s => if s = "a" then some 1 else if s = "b" then some 2 else none)
        "patrv1.a.b" = .ok (2, 1) ∧
    parseApiTokenStr (fun s => if s = "a" then some 1 else if s = "b" then some 2 else none)
        "patrv1.a.b" ≠
      parseApiTokenSpecOrder
        (fun s => if s = "a" then some 1 else if s = "b" then some 2 else none)
        "patrv1.a.b" := by
  refine ⟨rfl, rfl, fun hcc => ?_⟩
  have h1 : ((1 : Uuid), (2 : Uuid)) = ((2 : Uuid), (1 : Uuid)) := Except.ok.inj hcc
  exact absurd (congrArg Prod.fst h1) (by decide)

/-- Claim C5 (amended): a bearer string proceeds past parsing only when it has
the form `patrv1.<secret-as-id>.<login-id-as-id>` — the fixed marker, a
dot-free segment parsing as the secret (refresh token), a dot, and a segment
parsing as the login id (first conjunct); every parse failure is
`MalformedApiToken` (second conjunct); and on a parse failure the whole
API-token branch returns `MalformedApiToken` for every store state — the
token row fetch, resolver rows and cache are never consulted (third
conjunct). -/
theorem api_token_parse_shape (u : String → Option Uuid) (tok : String) :
    (∀ rt lid, parseApiTokenStr u tok = .ok (rt, lid) →
      ∃ rts lids : List Char,
        tok = ⟨"patrv1.".data ++ rts ++ '.' :: lids⟩ ∧ '.' ∉ rts ∧
          u ⟨rts⟩ = some rt ∧ u ⟨lids⟩ = some lid) ∧
    (∀ e, parseApiTokenStr u tok = .error e → e = .MalformedApiToken) ∧
    (∀ e, parseApiTokenStr u tok = .error e →
      ∀ crypto now ip env, authApiToken u crypto now ip tok env =
        .error .MalformedApiToken) := by
  have herr : ∀ e, parseApiTokenStr u tok = .error e → e = .MalformedApiToken := by
    intro e h
    unfold parseApiTokenStr at h
    cases hs : stripPatrV1 tok with
    | none => simp only [hs] at h; exact (Except.error.inj h).symm
    | some rest =>
      simp only [hs] at h
      cases hsp : splitOnceDot rest with
      | none => simp only [hsp] at h; exact (Except.error.inj h).symm
      | some pair =>
        obtain ⟨s1, s2⟩ := pair
        simp only [hsp] at h
        cases hu1 : u s1 with
        | none => simp only [hu1] at h; exact (Except.error.inj h).symm
        | some v1 =>
          simp only [hu1] at h
          cases hu2 : u s2 with
          | none => simp only [hu2] at h; exact (Except.error.inj h).symm
          | some v2 => simp only [hu2] at h; exact Except.noConfusion h
  refine ⟨?_, herr, ?_⟩
  · intro rt lid h
    unfold parseApiTokenStr at h
    cases hs : stripPatrV1 tok with
    | none => simp only [hs] at h; exact Except.noConfusion h
    | some rest =>
      simp only [hs] at h
      cases hsp : splitOnceDot rest with
      | none => simp only [hsp] at h; exact Except.noConfusion h
      | some pair =>
        obtain ⟨s1, s2⟩ := pair
        simp only [hsp] at h
        cases hu1 : u s1 with
        | none => simp only [hu1] at h; exact Except.noConfusion h
        | some v1 =>
          simp only [hu1] at h
          cases hu2 : u s2 with
          | none => simp only [hu2] at h; exact Except.noConfusion h
          | some v2 =>
            simp only [hu2, Except.ok.injEq, Prod.mk.injEq] at h
            obtain ⟨hv1, hv2⟩ := h
            subst hv1
            subst hv2
            unfold stripPatrV1 at hs
            cases hsl : stripPat "patrv1.".data tok.data with
            | none => simp only [hsl] at hs; exact Option.noConfusion hs
            | some l =>
              simp only [hsl, Option.map_some', Option.some.injEq] at hs
              have hld : rest.data = l := by rw [← hs]
              unfold splitOnceDot at hsp
              rw [hld] at hsp
              cases hsc : splitOnceChar '.' l with
              | none => simp only [hsc] at hsp; exact Option.noConfusion hsp
              | some ab =>
                obtain ⟨a, b⟩ := ab
                simp only [hsc, Option.map_some', Option.some.injEq,
                  Prod.mk.injEq] at hsp
                obtain ⟨ha1, ha2⟩ := hsp
                subst ha1
                subst ha2
                obtain ⟨hl2, hdot⟩ := splitOnceChar_eq '.' l a b hsc
                refine ⟨a, b, ?_, hdot, hu1, hu2⟩
                have hd : tok.data = "patrv1.".data ++ (a ++ '.' :: b) := by
                  rw [← hl2]
                  exact stripPat_eq _ _ _ hsl
                calc tok = ⟨tok.data⟩ := rfl
                  _ = ⟨"patrv1.".data ++ a ++ '.' :: b⟩ := by rw [hd]; simp
  · intro e h crypto now ip env
    have he := herr e h
    subst he
    unfold authApiToken
    rw [h]

/-- Witness for C5 (amended) at a concrete input: a string without the fixed
marker is rejected with `MalformedApiToken` by the full API-token branch. -/
theorem api_token_parse_shape_witness :
    authApiToken (fun _ => none) ⟨fun _ => true, true, fun _ _ => true⟩ 0 0 "not-a-token"
        ⟨fun _ => none, ⟨[], [], []⟩, ⟨none, ⟨none, none, [], none⟩⟩⟩ =
      .error .MalformedApiToken :=
  (api_token_parse_shape (fun _ => none) "not-a-token").2.2 .MalformedApiToken rfl
    ⟨fun _ => true, true, fun _ _ => true⟩ 0 0
    ⟨fun _ => none, ⟨[], [], []⟩, ⟨none, ⟨none, none, [], none⟩⟩⟩

/-- Claim C6: a session token whose decoded issuer differs from the expected
issuer is rejected with `MalformedAccessToken`; the store environment (login
row fetch, resolver rows, cache) is universally quantified and never
consulted — the issuer check precedes every store access in `authSession`. -/
theorem session_issuer_mismatch_rejected_before_store (cfg : SessionConfig)
    (c : AccessTokenData) (now : Int) (env : SessionAuthEnv)
    (h : c.iss ≠ cfg.jwtIssuer) :
    authSession cfg (some c) now env = .error .MalformedAccessToken := by
  simp only [authSession]
  rw [if_pos h]

/-- Witness for C6 at a concrete input. -/
theorem session_issuer_mismatch_witness :
    authSession ⟨"patr", "aud", 300⟩ (some ⟨"other", 1, .One "aud", 10, 0, some 0⟩) 5
        ⟨fun _ => none, ⟨[], [], []⟩, ⟨none, ⟨none, none, [], none⟩⟩⟩ =
      .error .MalformedAccessToken :=
  session_issuer_mismatch_rejected_before_store ⟨"patr", "aud", 300⟩
    ⟨"other", 1, .One "aud", 10, 0, some 0⟩ 5
    ⟨fun _ => none, ⟨[], [], []⟩, ⟨none, ⟨none, none, [], none⟩⟩⟩ (by decide)

/-- Claim C8: once the workspace row exists (non-deleted) and is owned by the
requester, `delete_workspace` fails with `WorkspaceNotEmpty` and performs
neither mutation whenever any non-deleted resource remains (first conjunct);
with zero resources it marks the workspace resource deleted and writes the
workspace-scope revocation marker valued at the current time with TTL equal
to the cache-validity window plus the 300-second safety margin (second
conjunct), which strictly exceeds the snapshot TTL the authenticator uses
(third conjunct). -/
theorem delete_workspace_empty_check_and_marker (userId : Uuid)
    (env : DeleteWorkspaceEnv) (now : Int) (validity : Nat) (w : WorkspaceRow)
    (hw : env.workspaceRow = some w) (hown : w.super_admin_id = userId) :
    (0 < env.resourceCount →
      delete_workspace userId env now validity =
        (.error .WorkspaceNotEmpty, ⟨false, none⟩)) ∧
    (env.resourceCount = 0 →
      delete_workspace userId env now validity =
        (.ok (), ⟨true, some (now, deletionMarkerTtlSeconds validity)⟩)) ∧
    snapshotTtlSeconds validity < deletionMarkerTtlSeconds validity := by
  refine ⟨?_, ?_, by simp [snapshotTtlSeconds, deletionMarkerTtlSeconds]⟩
  · intro hr
    simp [delete_workspace, hw, hown, hr]
  · intro hr
    simp [delete_workspace, hw, hown, hr]

/-- Witness for C8 at concrete inputs (validity window 600 seconds): one
resource remaining fails with `WorkspaceNotEmpty` and no effects; zero
resources succeeds with the marker `(now, 900)`. -/
theorem delete_workspace_empty_check_and_marker_witness :
    delete_workspace 3 ⟨some ⟨9, 3⟩, 1⟩ 50 600 =
      (.error .WorkspaceNotEmpty, ⟨false, none⟩) ∧
    delete_workspace 3 ⟨some ⟨9, 3⟩, 0⟩ 50 600 = (.ok (), ⟨true, some (50, 900)⟩) ∧
    snapshotTtlSeconds 600 < deletionMarkerTtlSeconds 600 := by
  refine ⟨?_, ?_, ?_⟩
  · exact (delete_workspace_empty_check_and_marker 3 ⟨some ⟨9, 3⟩, 1⟩ 50 600 ⟨9, 3⟩
      rfl rfl).1 (by decide)
  · exact (delete_workspace_empty_check_and_marker 3 ⟨some ⟨9, 3⟩, 0⟩ 50 600 ⟨9, 3⟩
      rfl rfl).2.1 rfl
  · exact (delete_workspace_empty_check_and_marker 3 ⟨some ⟨9, 3⟩, 0⟩ 50 600 ⟨9, 3⟩
      rfl rfl).2.2

/-- Claim C9: over any finite prefix of race outcomes, the relay's publish
attempts are exactly the verbatim `(channel, payload)` pairs of the
successfully received notifications that precede the first shutdown signal —
so publishes are untransformed, publish failures are ignored (the publish
outcome flag does not appear in the characterization), failed receives are
skipped, and nothing after the shutdown signal is processed; the relay ends
`Stopped` exactly when a shutdown signal occurs in the prefix. -/
theorem relay_publishes_verbatim_until_shutdown (evts : List RelayEvent) :
    (relayRun evts).1 =
      (evts.takeWhile (fun e => !isShutdown e)).filterMap notifPayload ∧
    ((relayRun evts).2 = .Stopped ↔ evts.any isShutdown = true) := by
  induction evts with
  | nil => exact ⟨rfl, by simp [relayRun]⟩
  | cons e rest ih =>
    obtain ⟨ih1, ih2⟩ := ih
    cases e with
    | shutdown =>
      refine ⟨by simp [relayRun, isShutdown, List.takeWhile_cons], ?_⟩
      simp [relayRun, isShutdown]
    | notification recvOk ch pl pf =>
      refine ⟨?_, ?_⟩
      · cases recvOk with
        | true =>
          simp [relayRun, isShutdown, List.takeWhile_cons, notifPayload, ih1]
        | false =>
          simp [relayRun, isShutdown, List.takeWhile_cons, notifPayload, ih1]
      · simp [relayRun, isShutdown, ih2]

end Patr
